import Mathlib

/-!
Shallow embedding of the twikit command engine (Go package twicli), the
message-filter contract (Go package twisms) and the module loader (Go package
twid), together with theorems about the behaviour of these functions.

Each definition mirrors the corresponding Go function; stateful or effectful
code is represented by explicit inputs (such as the result of a reply call)
and explicit outputs (such as the list of supervised units submitted to the
error group).
-/

namespace Twikit

/-- ASCII lowercase mapping of a string, embedding Go strings.ToLower for the
command names used by the matchers. -/
def toLowerString (s : String) : String :=
  String.mk (s.data.map Char.toLower)

/-- Splits a character list at the first space: the characters before it and,
when a space exists, the characters after it. -/
def splitFirstSpace : List Char → List Char × Option (List Char)
  | [] => ([], none)
  | c :: cs =>
    if c = ' ' then ([], some cs)
    else
      let r := splitFirstSpace cs
      (c :: r.1, r.2)

/-- Modelled from the spec: twicli.PopFirstWord, whose source file is not
among the provided sources, splits the body into its first
whitespace-delimited token and the remaining text, and fails (returns a
non-nil error, here none) on an empty body. -/
def PopFirstWord (s : String) : Option (String × String) :=
  if s = "" then none
  else
    let r := splitFirstSpace s.data
    some (String.mk r.1, String.mk (r.2.getD []))

/-- Go type twicli.PrefixFunc: body to (remainder, matched). -/
abbrev PrefixFunc := String → String × Bool

/-- Embeds twicli.NewNaturalPrefix: case-insensitive comparison of the first token
against the lowercased name followed by a comma; on a match, the tail. -/
def NewNaturalPrefixFunc (name : String) : PrefixFunc :=
  let pfx := toLowerString name ++ ","
  fun msg =>
    match PopFirstWord msg with
    | none => ("", false)
    | some (first, tail) =>
      if toLowerString first = pfx then (tail, true) else ("", false)

/-- Embeds twicli.NewSlashPrefix: case-sensitive comparison of the first token
against a slash followed by the name; on a match, the tail. -/
def NewSlashPrefixFunc (name : String) : PrefixFunc :=
  let pfx := "/" ++ name
  fun msg =>
    match PopFirstWord msg with
    | none => ("", false)
    | some (first, tail) =>
      if first = pfx then (tail, true) else ("", false)

/-- Embeds twicli.NewWordPrefix: comparison of the first token against a word, case
sensitive when cased is true and strings.EqualFold otherwise; the tail is
returned together with the comparison result. -/
def NewWordPrefixFunc (word : String) (cased : Bool) : PrefixFunc :=
  fun msg =>
    match PopFirstWord msg with
    | none => ("", false)
    | some (first, tail) =>
      let ok : Bool :=
        if cased then decide (first = word)
        else decide (toLowerString first = toLowerString word)
      (tail, ok)

/-- Go error values reachable in this code: the twicli.ErrNotMatched sentinel,
any other leaf error, and a pkg/errors style wrap around an inner error. -/
inductive GoError where
  | notMatched
  | other (msg : String)
  | wrapped (note : String) (inner : GoError)
deriving DecidableEq

/-- Embeds errors.Is(e, ErrNotMatched): identity of the sentinel through the wrap
chain, never a string comparison. -/
def GoError.isNotMatched : GoError → Bool
  | GoError.notMatched => true
  | GoError.other _ => false
  | GoError.wrapped _ inner => inner.isNotMatched

/-- Embeds err.Error(): the sentinel text, a leaf text, or the pkg/errors wrap
format. -/
def GoError.message : GoError → String
  | GoError.notMatched => "message did not match command"
  | GoError.other msg => msg
  | GoError.wrapped note inner => note ++ ": " ++ inner.message

/-- Embeds errors.Is(err, ErrNotMatched) on a possibly nil error value. -/
def errIsNotMatched : Option GoError → Bool
  | none => false
  | some e => e.isNotMatched

/-- Embeds twipi.Message: the fields the command engine reads. -/
structure TwipiMessage where
  From : String
  To : String
  Body : String
deriving DecidableEq

/-- Embeds twicli.Message: wraps the original twipi message and adds a working body
that the command tree progressively strips. -/
structure Message where
  inner : TwipiMessage
  Body : String
deriving DecidableEq

/-- Go type twicli.ActionFunc (the context argument is dropped; a nil result
is none). -/
abbrev ActionFunc := Message → Option GoError

/-- Embeds twicli.Command: a matcher together with an action. -/
structure Command where
  PrefixFunc : PrefixFunc
  Action : ActionFunc

/-- Embeds twicli.Command.Do: on a match replace the working body with the remainder
and run the action; otherwise the ErrNotMatched sentinel. -/
def Command.Do (c : Command) (msg : Message) : Option GoError :=
  let r := c.PrefixFunc msg.Body
  if r.2 then c.Action { msg with Body := r.1 }
  else some GoError.notMatched

/-- The loop of twicli.Subcommands over the remaining children: continue past
a child whose Do is ErrNotMatched, otherwise return the outcome of that child. -/
def subcommandsRun : List Command → Message → Option GoError
  | [], _ => some GoError.notMatched
  | cmd :: rest, msg =>
    let err := cmd.Do msg
    if errIsNotMatched err then subcommandsRun rest msg
    else err

/-- Embeds twicli.Subcommands: an ActionFunc that tries each child in order. -/
def Subcommands (cmds : List Command) : ActionFunc :=
  fun msg => subcommandsRun cmds msg

/-- Embeds twicli.ErrorMessage: the user-facing text for an error. -/
def ErrorMessage : Option GoError → String
  | none => ""
  | some e =>
    if e.isNotMatched then "Sorry! I'm not sure what you mean."
    else "Sorry, an error occured: " ++ e.message

/-- Observable effects of one DoAndReply call: the body of the reply it
attempted, when it attempted one, and whether it logged a failed reply. The
Go function returns nothing, so no error can propagate out of it. -/
structure ReplyTrace where
  sentBody : Option String
  loggedFailure : Bool
deriving DecidableEq

/-- Embeds twicli.Command.DoAndReply: run Do on the wrapped message; when Do fails,
reply with the ErrorMessage text and log when the reply itself fails.
replyErr is the result of the ReplySMS transport call. -/
def Command.DoAndReply (c : Command) (msg : TwipiMessage)
    (replyErr : Option GoError) : ReplyTrace :=
  match c.Do { inner := msg, Body := msg.Body } with
  | none => { sentBody := none, loggedFailure := false }
  | some e =>
    { sentBody := some (ErrorMessage (some e)), loggedFailure := replyErr.isSome }

/-- Embeds twismsproto.Message fields read by FilterMessage. -/
structure SmsMessage where
  From : String
  To : String
deriving DecidableEq

/-- Embeds twismsproto.MessageFilter: the two oneof cases. -/
inductive MessageFilter where
  | matchFrom (v : String)
  | matchTo (v : String)
deriving DecidableEq

/-- Embeds twisms.FilterMessage: false at the first failing filter, true when the
list is exhausted. -/
def FilterMessage : List MessageFilter → SmsMessage → Bool
  | [], _ => true
  | MessageFilter.matchFrom v :: rest, msg =>
    if msg.From ≠ v then false else FilterMessage rest msg
  | MessageFilter.matchTo v :: rest, msg =>
    if msg.To ≠ v then false else FilterMessage rest msg

/-- One filter read as an exact-match field predicate, following the spec
wording; used to compare FilterMessage with a conjunction of predicates. -/
def filterSpecHolds : MessageFilter → SmsMessage → Bool
  | MessageFilter.matchFrom v, msg => decide (msg.From = v)
  | MessageFilter.matchTo v, msg => decide (msg.To = v)

/-- Embeds twid.Module; the New constructor is represented by the module value
itself standing for the handler it would construct. -/
structure Module where
  Name : String
deriving DecidableEq

/-- Reserved twid module names. -/
def illegalNames : List String := ["twid", "twipi"]

/-- Embeds twid.Register: a fault (Go panic) on a reserved name, otherwise the module
is appended to the registry. -/
def Register (mods : List Module) (m : Module) : Except String (List Module) :=
  if m.Name ∈ illegalNames then Except.error ("illegal module name: " ++ m.Name)
  else Except.ok (mods ++ [m])

/-- A sequence of Register calls, stopping at the first fault. -/
def RegisterAll (mods : List Module) (pending : List Module) :
    Except String (List Module) :=
  match pending with
  | [] => Except.ok mods
  | m :: rest =>
    match Register mods m with
    | Except.error e => Except.error e
    | Except.ok mods2 => RegisterAll mods2 rest

/-- Go map assignment handlers[k] = v: any existing entry for k is replaced. -/
def mapInsert (m : List (String × Module)) (k : String) (v : Module) :
    List (String × Module) :=
  m.filter (fun p => decide (p.1 ≠ k)) ++ [(k, v)]

/-- Embeds twid.NewLoader: the handlers map built from the registered modules, one
constructed handler per name. -/
def newLoaderHandlers (mods : List Module) : List (String × Module) :=
  mods.foldl (fun acc m => mapInsert acc m.Name m) []

/-- Capabilities of one handler as discovered by the type
assertions of the loader. -/
structure HandlerCaps where
  isMessageHandler : Bool
  isCommandHandler : Bool
deriving DecidableEq

/-- The loader state read by Start; handler iteration order is fixed by the
list (a Go map iterates in unspecified order). -/
structure LoaderModel where
  enabled : List (String × Bool)
  handlers : List (String × HandlerCaps)
  twipiConfigured : Bool
  twipiMessageConfigured : Bool
  httpConfigured : Bool
deriving DecidableEq

/-- Go map read m[k] on a bool-valued map: false when the key is absent. -/
def lookupEnabled (m : List (String × Bool)) (k : String) : Bool :=
  match m.find? (fun p => p.1 == k) with
  | some p => p.2
  | none => false

/-- One supervised unit submitted to the error group by Loader.Start. -/
inductive SupUnit where
  | twipiUpdate
  | httpServer
  | messageLoop (name : String)
  | commandLoop (name : String)
  | moduleStart (name : String)
deriving DecidableEq

/-- The per-handler loop of twid.Loader.Start: the units submitted so far
together with the early-return error, when one occurs. -/
def startHandlers (l : LoaderModel) (acc : List SupUnit) :
    List (String × HandlerCaps) → List SupUnit × Option String
  | [] => (acc, none)
  | (name, h) :: rest =>
    if !(lookupEnabled l.enabled name) then startHandlers l acc rest
    else if h.isMessageHandler && !l.twipiConfigured then
      (acc, some "twipi is not configured")
    else if h.isMessageHandler && !l.twipiMessageConfigured then
      (acc, some "twipi message handler is not configured")
    else
      let acc1 := acc ++ (if h.isMessageHandler then [SupUnit.messageLoop name] else [])
      if h.isCommandHandler && !l.twipiConfigured then
        (acc1, some "twipi is not configured")
      else if h.isCommandHandler && !l.twipiMessageConfigured then
        (acc1, some "twipi message handler is not configured")
      else
        startHandlers l
          (acc1 ++ (if h.isCommandHandler then [SupUnit.commandLoop name] else []) ++
            [SupUnit.moduleStart name])
          rest

/-- Embeds twid.Loader.Start: the twid-enabled guard, then the twipi update and HTTP
units, then the per-module units; reaching errg.Wait is the (units, none)
outcome. -/
def LoaderModel.Start (l : LoaderModel) : List SupUnit × Option String :=
  if !(lookupEnabled l.enabled "twid") then ([], some "twid is not enabled")
  else
    startHandlers l
      ((if l.twipiConfigured then [SupUnit.twipiUpdate] else []) ++
       (if l.httpConfigured then [SupUnit.httpServer] else []))
      l.handlers

/-- The parsed pieces of one well-formed configuration document that
LoadConfig branches on. -/
structure ConfigDoc where
  enabledBlocks : List (String × Bool)
  listenAddr : String
deriving DecidableEq

/-- Outcome of LoadConfig: a nil return, an error return, or a runtime fault
(Go panic). -/
inductive LoadOutcome where
  | ok
  | err (msg : String)
  | fault (msg : String)
deriving DecidableEq

/-- Embeds twid.Loader.LoadConfig after a successful parse of a well-formed
document: create the twipi server when the twipi module is enabled, create
the mux when a listen address is configured, and finally mount the twipi
handler on the mux — a nil-dereference fault when the mux was never created.
twipiCreationOk abstracts whether twipi.NewConfiguredServer succeeds. -/
def LoadConfig (doc : ConfigDoc) (twipiCreationOk : Bool) : LoadOutcome :=
  let twipiEnabled := lookupEnabled doc.enabledBlocks "twipi"
  if twipiEnabled && !twipiCreationOk then
    LoadOutcome.err "failed to create twipi server"
  else
    let muxCreated := doc.listenAddr != ""
    if twipiEnabled && !muxCreated then LoadOutcome.fault "Mount called on nil mux"
    else LoadOutcome.ok

/-!
Theorems about the embedded functions.
-/

/-- Claim C1: the aggregate action built by Subcommands tries the Do of each child
in order; a child whose Do is the NotMatched sentinel means the next child is
tried; a child whose Do is success or any other error makes that outcome the
result of the aggregate immediately and no later child is tried; if every child is
NotMatched the aggregate is NotMatched. -/
theorem subcommands_short_circuit (msg : Message) :
    (∀ cmds : List Command, (∀ c ∈ cmds, errIsNotMatched (c.Do msg) = true) →
      Subcommands cmds msg = some GoError.notMatched) ∧
    (∀ (pre : List Command) (mid : Command) (post : List Command),
      (∀ c ∈ pre, errIsNotMatched (c.Do msg) = true) →
      errIsNotMatched (mid.Do msg) = false →
      Subcommands (pre ++ mid :: post) msg = mid.Do msg) := by
  constructor
  · intro cmds h
    induction cmds with
    | nil => rfl
    | cons head rest ih =>
      have hh : errIsNotMatched (head.Do msg) = true :=
        h head (List.mem_cons_self head rest)
      have ih2 := ih (fun c hc => h c (List.mem_cons_of_mem head hc))
      simpa [Subcommands, subcommandsRun, hh] using ih2
  · intro pre mid post hpre hmid
    induction pre with
    | nil => simp [Subcommands, subcommandsRun, hmid]
    | cons head rest ih =>
      have hh : errIsNotMatched (head.Do msg) = true :=
        hpre head (List.mem_cons_self head rest)
      have ih2 := ih (fun c hc => hpre c (List.mem_cons_of_mem head hc))
      simpa [Subcommands, subcommandsRun, hh] using ih2

/-- Concrete message for exercising the subcommand aggregation. -/
def c1Msg : Message :=
  { inner := { From := "a", To := "b", Body := "hello" }, Body := "hello" }

/-- A command whose matcher never matches. -/
def c1CmdMiss : Command :=
  { PrefixFunc := fun _ => ("", false), Action := fun _ => none }

/-- A command that always matches and whose action fails. -/
def c1CmdFail : Command :=
  { PrefixFunc := fun s => (s, true), Action := fun _ => some (GoError.other "boom") }

/-- A command that always matches and whose action succeeds. -/
def c1CmdOk : Command :=
  { PrefixFunc := fun s => (s, true), Action := fun _ => none }

/-- Witness for C1: with a non-matching first child, a failing second child
and a succeeding third child, the aggregate is the error of the second child. -/
theorem subcommands_short_circuit_witness :
    Subcommands [c1CmdMiss, c1CmdFail, c1CmdOk] c1Msg = some (GoError.other "boom") := by
  have h := (subcommands_short_circuit c1Msg).2 [c1CmdMiss] c1CmdFail [c1CmdOk]
    (by
      intro c hc
      rw [List.mem_singleton] at hc
      subst hc
      rfl)
    (by rfl)
  have h2 : c1CmdFail.Do c1Msg = some (GoError.other "boom") := rfl
  rw [h2] at h
  simpa using h

/-- Claim C2 counterexample: the body "hello world" does not start with the
token registered by the natural matcher for "Discord", yet the remainder
returned is the empty string, not the original body. -/
theorem matcher_nonmatch_remainder_cx :
    NewNaturalPrefixFunc "Discord" "hello world" = ("", false) ∧
    ("" : String) ≠ "hello world" := by
  constructor
  · decide
  · decide

/-- Claim C2 (amended): for a body whose first token is not the registered
token, every built-in matcher returns matched=false; the remainder is the
empty string for the natural and slash matchers and the post-first-word tail
for the word matcher, not the original body; the message body itself is left
unchanged because Command.Do discards the remainder when matched=false. -/
theorem matcher_nonmatch_behavior :
    (∀ name msg first tail, PopFirstWord msg = some (first, tail) →
        toLowerString first ≠ toLowerString name ++ "," →
        NewNaturalPrefixFunc name msg = ("", false)) ∧
    (∀ name msg first tail, PopFirstWord msg = some (first, tail) →
        first ≠ "/" ++ name →
        NewSlashPrefixFunc name msg = ("", false)) ∧
    (∀ word msg first tail, PopFirstWord msg = some (first, tail) →
        first ≠ word →
        NewWordPrefixFunc word true msg = (tail, false)) ∧
    (∀ word msg first tail, PopFirstWord msg = some (first, tail) →
        toLowerString first ≠ toLowerString word →
        NewWordPrefixFunc word false msg = (tail, false)) ∧
    (∀ (c : Command) (msg : Message), (c.PrefixFunc msg.Body).2 = false →
        c.Do msg = some GoError.notMatched) := by
  refine ⟨?_, ?_, ?_, ?_, ?_⟩
  · intro name msg first tail hpop hne
    simp [NewNaturalPrefixFunc, hpop, hne]
  · intro name msg first tail hpop hne
    simp [NewSlashPrefixFunc, hpop, hne]
  · intro word msg first tail hpop hne
    simp [NewWordPrefixFunc, hpop, hne]
  · intro word msg first tail hpop hne
    simp [NewWordPrefixFunc, hpop, hne]
  · intro c msg h
    simp [Command.Do, h]

/-- Witness for C2 (amended): the natural matcher for "Discord" on the
non-matching body "hello world" yields the empty remainder and matched=false. -/
theorem matcher_nonmatch_behavior_witness :
    NewNaturalPrefixFunc "Discord" "hello world" = ("", false) :=
  matcher_nonmatch_behavior.1 "Discord" "hello world" "hello" "world"
    (by decide) (by decide)

/-- Claim C3 counterexample: the code spells the error reply
"Sorry, an error occured: <detail>", which differs from the claimed
"Sorry, an error occurred: <detail>". -/
theorem error_message_spelling_cx :
    ErrorMessage (some (GoError.other "boom")) = "Sorry, an error occured: boom" ∧
    "Sorry, an error occured: boom" ≠ "Sorry, an error occurred: boom" := by
  constructor
  · decide
  · decide

/-- Claim C3 (amended): DoAndReply replies exactly when Do fails; the
NotMatched sentinel maps to the generic text, any other error maps to
"Sorry, an error occured: <detail>" (as spelled by the code); a failed reply
is only logged; and on success no reply is attempted. DoAndReply returns only
the trace, so no error propagates out of it. -/
theorem doAndReply_behavior :
    (∀ (c : Command) (msg : TwipiMessage) (replyErr : Option GoError),
        c.Do { inner := msg, Body := msg.Body } = none →
        c.DoAndReply msg replyErr = { sentBody := none, loggedFailure := false }) ∧
    (∀ (c : Command) (msg : TwipiMessage) (replyErr : Option GoError) (e : GoError),
        c.Do { inner := msg, Body := msg.Body } = some e →
        (c.DoAndReply msg replyErr).sentBody = some (ErrorMessage (some e)) ∧
        (e.isNotMatched = true →
          (c.DoAndReply msg replyErr).sentBody =
            some "Sorry! I'm not sure what you mean.") ∧
        (e.isNotMatched = false →
          (c.DoAndReply msg replyErr).sentBody =
            some ("Sorry, an error occured: " ++ e.message)) ∧
        (c.DoAndReply msg replyErr).loggedFailure = replyErr.isSome) := by
  constructor
  · intro c msg replyErr h
    simp [Command.DoAndReply, h]
  · intro c msg replyErr e h
    refine ⟨?_, ?_, ?_, ?_⟩
    · simp [Command.DoAndReply, h]
    · intro he
      simp [Command.DoAndReply, h, ErrorMessage, he]
    · intro he
      simp [Command.DoAndReply, h, ErrorMessage, he]
    · simp [Command.DoAndReply, h]

/-- Concrete inbound message for exercising DoAndReply. -/
def c3Msg : TwipiMessage := { From := "a", To := "b", Body := "hi" }

/-- A command that always matches and whose action fails with a plain error. -/
def c3Cmd : Command :=
  { PrefixFunc := fun s => (s, true), Action := fun _ => some (GoError.other "boom") }

/-- Witness for C3 (amended): a failing action produces the misspelled error
reply, and a failing reply is logged. -/
theorem doAndReply_behavior_witness :
    (c3Cmd.DoAndReply c3Msg (some GoError.notMatched)).sentBody =
      some "Sorry, an error occured: boom" ∧
    (c3Cmd.DoAndReply c3Msg (some GoError.notMatched)).loggedFailure = true := by
  have h := doAndReply_behavior.2 c3Cmd c3Msg (some GoError.notMatched)
    (GoError.other "boom") rfl
  have h1 := h.2.2.1 rfl
  have h2 := h.2.2.2
  constructor
  · rw [h1]
    decide
  · rw [h2]
    rfl

/-- Claim C4: the natural matcher for name N matches a body exactly when the
first whitespace-delimited token of the body equals "N," compared
case-insensitively on the name but requiring the trailing comma, returning
the rest on a match; for "Discord", "discord, hello" yields ("hello", true)
and "Discordx, hello" does not match. -/
theorem naturalPrefix_spec :
    (∀ name msg rem, NewNaturalPrefixFunc name msg = (rem, true) ↔
        ∃ first tail, PopFirstWord msg = some (first, tail) ∧
          toLowerString first = toLowerString name ++ "," ∧ rem = tail) ∧
    NewNaturalPrefixFunc "Discord" "discord, hello" = ("hello", true) ∧
    (NewNaturalPrefixFunc "Discord" "Discordx, hello").2 = false := by
  refine ⟨?_, by decide, by decide⟩
  intro name msg rem
  constructor
  · intro h
    cases hpop : PopFirstWord msg with
    | none =>
      simp only [NewNaturalPrefixFunc, hpop] at h
      simp at h
    | some p =>
      obtain ⟨first, tail⟩ := p
      simp only [NewNaturalPrefixFunc, hpop] at h
      by_cases hc : toLowerString first = toLowerString name ++ ","
      · rw [if_pos hc] at h
        simp at h
        exact ⟨first, tail, rfl, hc, h.symm⟩
      · rw [if_neg hc] at h
        simp at h
  · rintro ⟨first, tail, hpop, heq, rfl⟩
    simp [NewNaturalPrefixFunc, hpop, heq]

/-- Witness for C4: the characterization applied at the example from the spec. -/
theorem naturalPrefix_spec_witness :
    NewNaturalPrefixFunc "Discord" "discord, hello" = ("hello", true) :=
  (naturalPrefix_spec.1 "Discord" "discord, hello" "hello").mpr
    ⟨"discord,", "hello", by decide, by decide, rfl⟩

/-- Claim C5: the slash matcher for name N matches a body exactly when the
first whitespace-delimited token of the body equals "/N" compared case-sensitively,
returning the rest on a match; for "msg", "/msg hi" yields ("hi", true) and
"/Msg hi" does not match. -/
theorem slashPrefix_spec :
    (∀ name msg rem, NewSlashPrefixFunc name msg = (rem, true) ↔
        ∃ first tail, PopFirstWord msg = some (first, tail) ∧
          first = "/" ++ name ∧ rem = tail) ∧
    NewSlashPrefixFunc "msg" "/msg hi" = ("hi", true) ∧
    (NewSlashPrefixFunc "msg" "/Msg hi").2 = false := by
  refine ⟨?_, by decide, by decide⟩
  intro name msg rem
  constructor
  · intro h
    cases hpop : PopFirstWord msg with
    | none =>
      simp only [NewSlashPrefixFunc, hpop] at h
      simp at h
    | some p =>
      obtain ⟨first, tail⟩ := p
      simp only [NewSlashPrefixFunc, hpop] at h
      by_cases hc : first = "/" ++ name
      · rw [if_pos hc] at h
        simp at h
        exact ⟨first, tail, rfl, hc, h.symm⟩
      · rw [if_neg hc] at h
        simp at h
  · rintro ⟨first, tail, hpop, heq, rfl⟩
    simp [NewSlashPrefixFunc, hpop, heq]

/-- Witness for C5: the characterization applied at the example from the spec. -/
theorem slashPrefix_spec_witness :
    NewSlashPrefixFunc "msg" "/msg hi" = ("hi", true) :=
  (slashPrefix_spec.1 "msg" "/msg hi" "hi").mpr
    ⟨"/msg", "hi", by decide, by decide, rfl⟩

/-- Claim C6: FilterMessage returns true exactly when the message satisfies
every filter, read as an exact-match predicate on the from or to field; a
match-from "A" filter rejects every message whose from field differs from
"A", and the empty filter list accepts every message. -/
theorem filterMessage_spec :
    (∀ (filters : List MessageFilter) (msg : SmsMessage),
        FilterMessage filters msg = true ↔
        ∀ f ∈ filters, filterSpecHolds f msg = true) ∧
    (∀ (msg : SmsMessage) (a : String), msg.From ≠ a →
        FilterMessage [MessageFilter.matchFrom a] msg = false) ∧
    (∀ msg : SmsMessage, FilterMessage [] msg = true) := by
  refine ⟨?_, ?_, ?_⟩
  · intro filters msg
    induction filters with
    | nil => simp [FilterMessage]
    | cons f rest ih =>
      cases f with
      | matchFrom v =>
        by_cases h : msg.From = v
        · simp [FilterMessage, filterSpecHolds, h, ih]
        · simp [FilterMessage, filterSpecHolds, h]
      | matchTo v =>
        by_cases h : msg.To = v
        · simp [FilterMessage, filterSpecHolds, h, ih]
        · simp [FilterMessage, filterSpecHolds, h]
  · intro msg a h
    simp [FilterMessage, h]
  · intro msg
    rfl

/-- Witness for C6: the match-from "A" filter rejects a message from "B". -/
theorem filterMessage_spec_witness :
    FilterMessage [MessageFilter.matchFrom "A"] { From := "B", To := "C" } = false :=
  filterMessage_spec.2.1 { From := "B", To := "C" } "A" (by decide)

/-- Claim C7: whenever the enabled map does not mark "twid" as enabled,
Loader.Start returns the "twid is not enabled" error with no supervised unit
started, regardless of the rest of the loader state. -/
theorem loader_start_requires_twid (l : LoaderModel)
    (h : lookupEnabled l.enabled "twid" = false) :
    LoaderModel.Start l = ([], some "twid is not enabled") := by
  simp [LoaderModel.Start, h]

/-- A loader state with other modules enabled and every resource configured,
but without the twid enable flag. -/
def c7Loader : LoaderModel :=
  { enabled := [("foo", true), ("twipi", true)],
    handlers := [("foo", { isMessageHandler := true, isCommandHandler := true })],
    twipiConfigured := true,
    twipiMessageConfigured := true,
    httpConfigured := true }

/-- Witness for C7: the fully configured loader state without the twid flag
still refuses to start. -/
theorem loader_start_requires_twid_witness :
    LoaderModel.Start c7Loader = ([], some "twid is not enabled") :=
  loader_start_requires_twid c7Loader (by decide)

/-- A fault-free sequence of Register calls keeps every module name outside
the reserved names, provided the starting registry already satisfied this. -/
theorem registerAll_ok_names (pending : List Module) :
    ∀ (acc result : List Module), (∀ m ∈ acc, m.Name ∉ illegalNames) →
      RegisterAll acc pending = Except.ok result →
      ∀ m ∈ result, m.Name ∉ illegalNames := by
  induction pending with
  | nil =>
    intro acc result hacc h
    simp only [RegisterAll, Except.ok.injEq] at h
    subst h
    exact hacc
  | cons m rest ih =>
    intro acc result hacc h
    by_cases hm : m.Name ∈ illegalNames
    · simp only [RegisterAll, Register, if_pos hm] at h
      exact absurd h (by simp)
    · simp only [RegisterAll, Register, if_neg hm] at h
      refine ih (acc ++ [m]) result ?_ h
      intro x hx
      rcases List.mem_append.mp hx with h1 | h2
      · exact hacc x h1
      · rw [List.mem_singleton] at h2
        subst h2
        exact hm

/-- Inserting into the handlers map keeps its keys without duplicates. -/
theorem mapInsert_keys_nodup (m : List (String × Module)) (k : String) (v : Module)
    (h : (m.map Prod.fst).Nodup) : ((mapInsert m k v).map Prod.fst).Nodup := by
  unfold mapInsert
  rw [List.map_append]
  rw [List.nodup_append]
  refine ⟨?_, by simp, ?_⟩
  · exact h.sublist (List.Sublist.map Prod.fst (List.filter_sublist m))
  · intro a ha hb
    simp only [List.map_cons, List.map_nil, List.mem_singleton] at hb
    obtain ⟨p, hp, hpk⟩ := List.mem_map.mp ha
    have hf := List.mem_filter.mp hp
    have hne : p.1 ≠ k := by simpa using hf.2
    exact hne (hpk.trans hb)

/-- The handlers map built by folding Go map assignments over the modules has
duplicate-free keys whenever the accumulator does. -/
theorem newLoaderHandlers_aux (mods : List Module) :
    ∀ acc : List (String × Module), (acc.map Prod.fst).Nodup →
      ((mods.foldl (fun a m => mapInsert a m.Name m) acc).map Prod.fst).Nodup := by
  induction mods with
  | nil =>
    intro acc h
    simpa using h
  | cons m rest ih =>
    intro acc h
    simp only [List.foldl_cons]
    exact ih _ (mapInsert_keys_nodup acc m.Name m h)

/-- Claim C9 counterexample: the same module name registers twice without a
fault, so registered module names are not unique. -/
theorem register_duplicate_names_cx :
    RegisterAll [] [{ Name := "foo" }, { Name := "foo" }] =
      Except.ok [({ Name := "foo" } : Module), { Name := "foo" }] ∧
    ¬ (([{ Name := "foo" }, { Name := "foo" }] : List Module).map Module.Name).Nodup := by
  constructor
  · rfl
  · decide

/-- Claim C9 (amended): registration faults on the reserved names twid and
twipi, so after any fault-free registration sequence no registered name is
reserved; uniqueness of names is not enforced by registration, and the
handler map of the loader merely keeps one (the last constructed) handler per
name, so its keys are duplicate-free. -/
theorem register_reserved_and_map (mods : List Module) :
    (∀ (acc : List Module) (m : Module), m.Name ∈ illegalNames →
        Register acc m = Except.error ("illegal module name: " ++ m.Name)) ∧
    (∀ result : List Module, RegisterAll [] mods = Except.ok result →
        ∀ m ∈ result, m.Name ∉ illegalNames) ∧
    ((newLoaderHandlers mods).map Prod.fst).Nodup := by
  refine ⟨?_, ?_, ?_⟩
  · intro acc m hm
    simp [Register, hm]
  · intro result h
    exact registerAll_ok_names mods [] result (by simp) h
  · simpa [newLoaderHandlers] using newLoaderHandlers_aux mods [] (by simp)

/-- Witness for C9 (amended): registering the reserved name twipi faults, and
a fault-free run over two modules leaves no reserved name registered. -/
theorem register_reserved_and_map_witness :
    Register [] { Name := "twipi" } = Except.error "illegal module name: twipi" ∧
    (({ Name := "foo" } : Module).Name ∉ illegalNames) := by
  constructor
  · have h := (register_reserved_and_map []).1 [] { Name := "twipi" } (by decide)
    exact h.trans rfl
  · have h := (register_reserved_and_map [{ Name := "foo" }]).2.1
      [{ Name := "foo" }] rfl
    exact h { Name := "foo" } (List.mem_singleton.mpr rfl)

/-- Claim C10: evaluating LoadConfig at a well-formed document that enables
twid and twipi but configures no HTTP listen address: the mux is never
created, and the final mount of the twipi handler faults on the nil mux
instead of completing. -/
theorem loadConfig_twipi_no_http_faults :
    LoadConfig { enabledBlocks := [("twid", true), ("twipi", true)], listenAddr := "" }
      true = LoadOutcome.fault "Mount called on nil mux" := by
  decide

end Twikit
